import Mathlib

/-!
# Verification of the QR-code browser extension core

Shallow embedding of the settings/history/storage/recognizer logic of the
QR-code extension (config-manager, history-manager, storage-manager,
qr-recognizer sources), together with theorems settling the spec claims.

Conventions of the embedding:
* JavaScript objects with optional keys become structures with `Option` fields;
  an absent key is `none`.
* Fallible operations (`throw` in the source) become `Except AppError`.
* Asynchronous storage writes are modelled by an explicit success flag or by
  passing the stored list through; timestamps, generated ids and measured
  durations (all produced by the environment) are explicit parameters.
* `chrome.storage.local` is modelled as a partial map from keys to untyped
  JSON-like values.
-/

set_option autoImplicit false

namespace QRCodeExt

/-- Error taxonomy of the extension (the `ERROR_TYPES` record lives in
`constants.js`, which is not among the provided sources; the six members are
taken from the spec error taxonomy and from the `ERROR_TYPES.…` uses in the
provided sources). -/
inductive ErrorType where
  | network
  | storage
  | permission
  | validation
  | runtime
  | unknown
deriving DecidableEq, Repr

/-- The `AppError` class of `error-handler.js`: a message, an error type, a
numeric code, and `details`, of which we keep the `error` member (the wrapped
inner error) since every manager re-wraps caught errors with it. -/
inductive AppError where
  | mk (message : String) (etype : ErrorType) (code : Nat) (inner : Option AppError)

def AppError.message : AppError → String
  | .mk m _ _ _ => m

def AppError.etype : AppError → ErrorType
  | .mk _ t _ _ => t

def AppError.code : AppError → Nat
  | .mk _ _ c _ => c

def AppError.inner : AppError → Option AppError
  | .mk _ _ _ i => i

/-- A settings object. All four keys are optional because partial settings
objects (e.g. the `{ [key]: value }` built by `setSetting`) flow through the
same code paths. `size` is a JS number, the three others are strings. -/
structure Settings where
  size : Option Int
  colorDark : Option String
  colorLight : Option String
  correctLevel : Option String
deriving DecidableEq, Repr

/-- Default settings. `DEFAULT_SETTINGS` lives in `constants.js` (not among
the provided sources); the values are those of the in-repo initializers
(`options.js` and the background service's `initializeDefaultSettings`):
size 200, black on white, correction level `H`. -/
def DEFAULT_SETTINGS : Settings :=
  { size := some 200
    colorDark := some "#000000"
    colorLight := some "#ffffff"
    correctLevel := some "H" }

/-- Values of `QR_CORRECT_LEVELS` (`constants.js`, not among the provided
sources). Modelled from the spec (`correctLevel: enum {L, M, Q, H}`) and from
the in-repo use `QRCode.CorrectLevel[settings.correctLevel]`, which requires
the stored value to be one of these four letter strings. -/
def QR_CORRECT_LEVELS : List String := ["L", "M", "Q", "H"]

/-- One hexadecimal digit, as accepted by the color regex character class
`[A-Fa-f0-9]`. -/
def isHexDigit (c : Char) : Bool :=
  c.isDigit || (decide ('a' ≤ c) && decide (c ≤ 'f')) || (decide ('A' ≤ c) && decide (c ≤ 'F'))

namespace ConfigManager

/-- `ConfigManager.isValidColor`: a string matching
`^#([A-Fa-f0-9]{6}|[A-Fa-f0-9]{3})$`; a missing value (not a string) is
invalid. -/
def isValidColor : Option String → Bool
  | none => false
  | some s =>
    match s.toList with
    | '#' :: rest => (rest.length == 6 || rest.length == 3) && rest.all isHexDigit
    | _ => false

/-- Bound check of `validateSettings`: `typeof settings.size === 'number'`
and `100 ≤ size ≤ 1000`. -/
def sizeOk (s : Settings) : Bool :=
  match s.size with
  | some v => decide (100 ≤ v) && decide (v ≤ 1000)
  | none => false

/-- Level check of `validateSettings`:
`Object.values(QR_CORRECT_LEVELS).includes(settings.correctLevel)`. -/
def correctLevelOk (s : Settings) : Bool :=
  match s.correctLevel with
  | some l => QR_CORRECT_LEVELS.contains l
  | none => false

/-- `ConfigManager.validateSettings`. Collects the four field error messages;
if any is present it throws the `4102` validation error. (The `4101` guard for
a `null`/`undefined` settings argument cannot arise in the typed embedding.) -/
def validateSettings (settings : Settings) : Except AppError Unit :=
  let errors : List String :=
    (if sizeOk settings then [] else ["Size must be between 100 and 1000"]) ++
    (if isValidColor settings.colorDark then [] else ["Invalid colorDark value"]) ++
    (if isValidColor settings.colorLight then [] else ["Invalid colorLight value"]) ++
    (if correctLevelOk settings then [] else ["Invalid correctLevel value"])
  if errors.isEmpty then Except.ok ()
  else Except.error (AppError.mk "Settings validation failed" ErrorType.validation 4102 none)

/-- The object spread `{ ...current, ...newSettings }`: a key present in
`newSettings` wins, an absent key falls back to `current`. -/
def mergeSettings (current newSettings : Settings) : Settings :=
  { size := match newSettings.size with | some v => some v | none => current.size
    colorDark := match newSettings.colorDark with | some v => some v | none => current.colorDark
    colorLight := match newSettings.colorLight with | some v => some v | none => current.colorLight
    correctLevel :=
      match newSettings.correctLevel with | some v => some v | none => current.correctLevel }

/-- State touched by `ConfigManager.saveSettings`: the in-memory
`currentSettings`, the persisted `qrSettings` record, and the event names the
listeners were notified with. -/
structure CfgState where
  currentSettings : Settings
  persisted : Option Settings
  events : List String
deriving DecidableEq, Repr

/-- Error thrown by the persistence chain when the storage write fails:
`StorageManager.set` wraps the platform failure as code `2002`,
`StorageManager.saveSettings` re-wraps it as code `2007`. -/
def persistFailure : AppError :=
  AppError.mk "Failed to save settings" ErrorType.storage 2007
    (some (AppError.mk "Storage set failed for key: qrSettings" ErrorType.storage 2002 none))

/-- `ConfigManager.saveSettings(newSettings)`. Validates the `newSettings`
argument itself, then merges it over `currentSettings`, persists the merged
object, and only then updates the in-memory settings and notifies the
`settingsSaved` listeners. Any error is re-wrapped by the surrounding `catch`
as a storage error with code `4002` whose details carry the original error.
`persistOk` models whether the asynchronous storage write succeeds. -/
def saveSettings (newSettings : Settings) (st : CfgState) (persistOk : Bool) :
    Except AppError Settings × CfgState :=
  match validateSettings newSettings with
  | Except.error e =>
      (Except.error (AppError.mk "Failed to save settings" ErrorType.storage 4002 (some e)), st)
  | Except.ok _ =>
      let mergedSettings := mergeSettings st.currentSettings newSettings
      if persistOk then
        (Except.ok mergedSettings,
         { currentSettings := mergedSettings
           persisted := some mergedSettings
           events := st.events ++ ["settingsSaved"] })
      else
        (Except.error
          (AppError.mk "Failed to save settings" ErrorType.storage 4002 (some persistFailure)),
         st)

end ConfigManager

/-- A configuration state holding the defaults, as after a fresh install. -/
def cfgSt0 : ConfigManager.CfgState :=
  { currentSettings := DEFAULT_SETTINGS
    persisted := some DEFAULT_SETTINGS
    events := [] }

/-- The partial settings object `{ size: 500 }`, as produced by
`setSetting('size', 500)`. -/
def sizeOnly500 : Settings :=
  { size := some 500, colorDark := none, colorLight := none, correctLevel := none }

/-- A fully populated but invalid settings object (`size = 50`). -/
def badSize50 : Settings :=
  { size := some 50
    colorDark := some "#000000"
    colorLight := some "#ffffff"
    correctLevel := some "H" }

/-- A history entry as built by `HistoryManager.add`: content, creation time,
generated id, and the content type derived at creation. -/
structure HistoryEntry where
  content : String
  timestamp : Nat
  id : String
  type : String
deriving DecidableEq, Repr

/-- Whitespace as matched by the JavaScript regex class `\s`
(ECMAScript WhiteSpace and LineTerminator code points). -/
def isJsSpace (c : Char) : Bool :=
  let n := c.toNat
  n == 0x09 || n == 0x0A || n == 0x0B || n == 0x0C || n == 0x0D || n == 0x20 ||
  n == 0xA0 || n == 0x1680 || (decide (0x2000 ≤ n) && decide (n ≤ 0x200A)) ||
  n == 0x2028 || n == 0x2029 || n == 0x202F || n == 0x205F || n == 0x3000 || n == 0xFEFF

namespace HistoryManager

/-- Scheme remainder of an absolute URL: characters drawn from
`[A-Za-z0-9+.-]` up to the terminating `:`. -/
def schemeTailColon : List Char → Bool
  | [] => false
  | c :: cs =>
    if c = ':' then true
    else (c.isAlphanum || c == '+' || c == '-' || c == '.') && schemeTailColon cs

/-- Modelled from the spec: `HistoryManager.isUrl` delegates to the platform
WHATWG `new URL(content)` constructor (an external collaborator, not in the
sources); the spec reads it as "content parses as a valid absolute URL".
Modelled as: the string starts with a scheme (an ASCII letter followed by
letters, digits, `+`, `-` or `.`) terminated by `:`. -/
def isUrl (content : String) : Bool :=
  match content.toList with
  | [] => false
  | c :: cs => c.isAlpha && schemeTailColon cs

/-- Dot requirement of the email regex: the domain part must contain a `.`
with at least one character on each side, i.e. at an interior position. -/
def hasInteriorDot (l : List Char) : Bool :=
  ((l.drop 1).dropLast).contains '.'

/-- Splits a character list at every occurrence of `sep` (the list-level
counterpart of `String.split`, restated structurally). -/
def splitAtChar (sep : Char) : List Char → List (List Char)
  | [] => [[]]
  | c :: cs =>
    match splitAtChar sep cs, c == sep with
    | r, true => [] :: r
    | h :: t, false => (c :: h) :: t
    | [], false => [[c]]

/-- `HistoryManager.isEmail`, the anchored regex `^[^\s@]+@[^\s@]+\.[^\s@]+$`:
exactly one `@` (the character classes exclude `@`), a nonempty local part
without whitespace, and a whitespace-free domain part containing an interior
dot. -/
def isEmail (content : String) : Bool :=
  match splitAtChar '@' content.toList with
  | [loc, domain] =>
      !loc.isEmpty && loc.all (fun c => !isJsSpace c) &&
      domain.all (fun c => !isJsSpace c) && hasInteriorDot domain
  | _ => false

/-- Character class `[\d\s\-\+\(\)]` of the phone regex. -/
def phoneChar (c : Char) : Bool :=
  c.isDigit || isJsSpace c || c == '-' || c == '+' || c == '(' || c == ')'

/-- `HistoryManager.isPhoneNumber`, the anchored regex `^[\d\s\-\+\(\)]{10,}$`:
at least ten characters, all digits, whitespace or separators. -/
def isPhoneNumber (content : String) : Bool :=
  decide (10 ≤ content.length) && content.toList.all phoneChar

/-- `HistoryManager.detectContentType`: url, else email, else phone, else
plain text. -/
def detectContentType (content : String) : String :=
  if isUrl content then "url"
  else if isEmail content then "email"
  else if isPhoneNumber content then "phone"
  else "text"

/-- The new item built by `HistoryManager.add` (without the optional
`metadata` spread, which no claim exercises): creation time and generated id
come from the environment. -/
def mkItem (content : String) (now : Nat) (id : String) : HistoryEntry :=
  { content := content, timestamp := now, id := id, type := detectContentType content }

/-- `HistoryManager.add(content)`: rejects empty content (falsy string) with
the `8101` validation error, re-wrapped by the surrounding `catch` as storage
error `8102`; otherwise prepends the new item (`unshift`) and truncates the
list to 100 entries (`history.length = 100`). Returns the new item and the
stored list. -/
def add (content : String) (now : Nat) (id : String) (history : List HistoryEntry) :
    Except AppError (HistoryEntry × List HistoryEntry) :=
  if content = "" then
    Except.error (AppError.mk "Failed to add to history" ErrorType.storage 8102
      (some (AppError.mk "Invalid content for history item" ErrorType.validation 8101 none)))
  else
    let newItem := mkItem content now id
    Except.ok (newItem, (newItem :: history).take 100)

/-- Runs a sequence of `add` calls, each with its content, timestamp and
generated id, threading the stored history (a failed call leaves the store
unchanged). -/
def runAdds (calls : List (String × Nat × String)) (history : List HistoryEntry) :
    List HistoryEntry :=
  match calls with
  | [] => history
  | c :: rest =>
    match add c.1 c.2.1 c.2.2 history with
    | Except.ok r => runAdds rest r.2
    | Except.error _ => runAdds rest history

/-- The `findIndex`/`splice(index, 1)` pair of `HistoryManager.delete`:
removes the first entry whose id matches, returning it and the remaining
list, or `none` when no entry matches (`findIndex` returned `-1`). -/
def removeFirstById (id : String) : List HistoryEntry → Option (HistoryEntry × List HistoryEntry)
  | [] => none
  | item :: rest =>
    if item.id = id then some (item, rest)
    else
      match removeFirstById id rest with
      | some (deletedItem, rest2) => some (deletedItem, item :: rest2)
      | none => none

/-- The error surfaced by `HistoryManager.delete` for a missing id: the
`8201` "History item not found" validation error, re-wrapped by the
surrounding `catch` as storage error `8202`. -/
def notFoundError : AppError :=
  AppError.mk "Failed to delete from history" ErrorType.storage 8202
    (some (AppError.mk "History item not found" ErrorType.validation 8201 none))

/-- `HistoryManager.delete(id)`: looks up the first entry with the given id;
throws for a missing id, otherwise removes exactly that entry and stores the
remaining list, returning the deleted item. -/
def delete (id : String) (history : List HistoryEntry) :
    Except AppError (HistoryEntry × List HistoryEntry) :=
  match removeFirstById id history with
  | none => Except.error notFoundError
  | some (deletedItem, rest) => Except.ok (deletedItem, rest)

/-- The mutable view state of `HistoryManager`: content-type filter, sort key
and order, and the lower-cased search query set by `search`. Constructor
defaults: `'all'`, `'timestamp'`, `'desc'`, `''`. -/
structure HMState where
  filterType : String
  sortBy : String
  sortOrder : String
  searchQuery : String
deriving DecidableEq, Repr

/-- JavaScript `String.prototype.toLowerCase`, modelled per character (ASCII
letters are what the claims exercise). -/
def toLower (s : String) : String := String.mk (s.toList.map Char.toLower)

/-- Does `hay` start with `needle`? -/
def startsWithList (needle hay : List Char) : Bool :=
  match needle, hay with
  | [], _ => true
  | _ :: _, [] => false
  | a :: as_, b :: bs => a == b && startsWithList as_ bs

/-- Does `needle` occur as a contiguous run inside `hay`? -/
def containsList (hay needle : List Char) : Bool :=
  startsWithList needle hay ||
    match hay with
    | [] => false
    | _ :: t => containsList t needle

/-- JavaScript `hay.includes(needle)`: substring containment. -/
def strIncludes (hay needle : String) : Bool :=
  containsList hay.toList needle.toList

/-- Comparator of the `timestamp` sort: the JS comparator returns
`a.timestamp - b.timestamp`, negated for descending order; an entry `a` may
precede `b` exactly when the comparator is `≤ 0`. -/
def tsLe (sortOrder : String) (a b : HistoryEntry) : Bool :=
  if sortOrder == "desc" then decide (b.timestamp ≤ a.timestamp)
  else decide (a.timestamp ≤ b.timestamp)

/-- Comparator of the `content` sort (`localeCompare`, modelled as
lexicographic string order). -/
def contentLe (sortOrder : String) (a b : HistoryEntry) : Bool :=
  if sortOrder == "desc" then decide (b.content ≤ a.content)
  else decide (a.content ≤ b.content)

/-- Stable insertion step: `a` is placed before the first element it compares
`le` to, after every element that strictly precedes it. -/
def orderedInsert {α : Type} (le : α → α → Bool) (a : α) : List α → List α
  | [] => [a]
  | b :: l => if le a b then a :: b :: l else b :: orderedInsert le a l

/-- Stable sort with comparator `le` (`a` may precede `b` iff `le a b`).
JavaScript `Array.prototype.sort` is a stable sort (ES2019), and a stable
sort's output is uniquely determined by the comparator, so insertion sort is
a faithful model of it. -/
def stableSort {α : Type} (le : α → α → Bool) : List α → List α
  | [] => []
  | a :: l => orderedInsert le a (stableSort le l)

/-- `HistoryManager.filterAndSort`: narrows by content type unless the filter
is `'all'`, narrows by the current `searchQuery` matching the lower-cased
*content* when the query is nonempty (truthy), then stable-sorts by the
selected key. -/
def filterAndSort (st : HMState) (history : List HistoryEntry) : List HistoryEntry :=
  let f1 := if st.filterType != "all"
    then history.filter (fun item => item.type == st.filterType) else history
  let f2 := if st.searchQuery != ""
    then f1.filter (fun item => strIncludes (toLower item.content) st.searchQuery) else f1
  if st.sortBy == "timestamp" then stableSort (tsLe st.sortOrder) f2
  else if st.sortBy == "content" then stableSort (contentLe st.sortOrder) f2
  else f2

/-- `HistoryManager.search(query)`: stores the lower-cased query in
`this.searchQuery`, reads the history through `getAll` (which applies
`filterAndSort` — with the query already set), then keeps entries whose
lower-cased content, or nonempty lower-cased type, contains the query.
Returns the results and the updated view state. -/
def search (query : String) (st : HMState) (history : List HistoryEntry) :
    List HistoryEntry × HMState :=
  let st2 := { st with searchQuery := toLower query }
  let all := filterAndSort st2 history
  (all.filter (fun item =>
      strIncludes (toLower item.content) st2.searchQuery ||
      (item.type != "" && strIncludes (toLower item.type) st2.searchQuery)),
   st2)

/-- The structured record built by `HistoryManager.exportAsJson` before it is
serialized: export time, item count, and the items themselves. The JSON text
round-trip (`JSON.stringify` / `JSON.parse`, both platform collaborators) is
lossless on this record and is modelled as the identity on it. -/
structure ExportData where
  exportTime : String
  totalItems : Nat
  items : List HistoryEntry
deriving DecidableEq, Repr

/-- `HistoryManager.exportAsJson(history)` up to serialization. -/
def exportAsJson (now : String) (history : List HistoryEntry) : ExportData :=
  { exportTime := now, totalItems := history.length, items := history }

/-- `HistoryManager.export('json')`: reads the history through `getAll`
(hence through `filterAndSort`) and hands it to `exportAsJson`. -/
def exportHistory (now : String) (st : HMState) (history : List HistoryEntry) : ExportData :=
  exportAsJson now (filterAndSort st history)

/-- `HistoryManager.importFromJson(data)` after parsing: returns
`parsed.items` when it is an array (always the case for an export record),
else the empty list. -/
def itemsFromJson (d : ExportData) : List HistoryEntry := d.items

/-- The storing half of `HistoryManager.import`: `history.unshift(...items)`
prepends the imported items in order, then the list is truncated to 100. -/
def storeImported (items history : List HistoryEntry) : List HistoryEntry :=
  (items ++ history).take 100

end HistoryManager

/-- The view state a fresh `HistoryManager` starts with. -/
def defaultHMState : HistoryManager.HMState :=
  { filterType := "all", sortBy := "timestamp", sortOrder := "desc", searchQuery := "" }

/-- An untyped JSON-like value, as held by `chrome.storage.local`. -/
inductive JsVal where
  | null
  | bool (b : Bool)
  | num (n : Int)
  | str (s : String)
  | arr (xs : List JsVal)

/-- The key/value store behind `chrome.storage.local`: `none` models a key
that is not set (`undefined`). -/
def Store : Type := String → Option JsVal

/-- The record stored by `StorageManager.saveToHistory`: unlike the
`HistoryManager` entries it carries no `type` field. -/
structure StorageEntry where
  content : String
  timestamp : Nat
  id : String
deriving DecidableEq, Repr

/-- History cap. `HISTORY_LIMIT` lives in `constants.js` (not among the
provided sources); modelled from the spec ("capped at a maximum length
(100)") and the literal `100` used by `HistoryManager.add`. -/
def HISTORY_LIMIT : Nat := 100

namespace StorageManager

/-- `this.maxRetries` of `StorageManager`. -/
def maxRetries : Nat := 3

/-- `this.retryDelay` of `StorageManager` (milliseconds). -/
def retryDelay : Nat := 1000

/-- Recursion kernel of `setWithRetry`, structurally recursive on the number
of retries still allowed, which the wrapper sets to `maxRetries − retryCount`
(the source guard `retryCount < this.maxRetries` holds exactly when that
number is positive). `attemptOk n` tells whether the write attempt with
`retryCount = n` succeeds; the result is the final outcome together with the
backoff delays `retryDelay * (retryCount + 1)` slept before each retry. -/
def setWithRetryGo (attemptOk : Nat → Bool) (retryCount : Nat) :
    Nat → Bool × List Nat
  | 0 => if attemptOk retryCount then (true, []) else (false, [])
  | fuel + 1 =>
    if attemptOk retryCount then (true, [])
    else
      let r := setWithRetryGo attemptOk (retryCount + 1) fuel
      (r.1, retryDelay * (retryCount + 1) :: r.2)

/-- `StorageManager.setWithRetry(key, value, retryCount)`: attempts the
write; on failure, while `retryCount < maxRetries`, schedules a retry after
`retryDelay * (retryCount + 1)` ms; once `retryCount` reaches `maxRetries`
the failure is reported to the caller. -/
def setWithRetry (attemptOk : Nat → Bool) (retryCount : Nat) : Bool × List Nat :=
  setWithRetryGo attemptOk retryCount (maxRetries - retryCount)

/-- `StorageManager.get(key, defaultValue)` with a fresh cache: reads the
key from storage and substitutes the default when the result is `undefined`.
(The read-through cache stores the value just read and is transparent to the
value returned; no claim depends on staleness.) -/
def get (store : Store) (key : String) (defaultValue : JsVal) : JsVal :=
  match store key with
  | some result => result
  | none => defaultValue

/-- `StorageManager.getHistory()`: reads the `qrHistory` key with default
`[]` and returns it only if it is an array (`Array.isArray`), else `[]`. -/
def getHistory (store : Store) : List JsVal :=
  match get store "qrHistory" (JsVal.arr []) with
  | JsVal.arr xs => xs
  | _ => []

/-- `StorageManager.saveToHistory(content)`: builds the new entry (timestamp
and generated id from the environment), `unshift`s it, truncates to
`HISTORY_LIMIT` and stores the list; returns the new entry and the stored
list. -/
def saveToHistory (content : String) (now : Nat) (id : String)
    (history : List StorageEntry) : StorageEntry × List StorageEntry :=
  let newEntry : StorageEntry := { content := content, timestamp := now, id := id }
  (newEntry, (newEntry :: history).take HISTORY_LIMIT)

end StorageManager

/-- A selection rectangle `(left, top, width, height)` in viewport pixels. -/
abbrev Rect : Type := Int × Int × Int × Int

/-- The DOM-visible state of `QRRecognizer`: the selection-mode flag, the
overlay rectangle element (with its geometry) when present, the drag anchor
and current pointer coordinates, and the body cursor. -/
structure RecState where
  isSelectionMode : Bool
  selectionBox : Option Rect
  startX : Int
  startY : Int
  currentX : Int
  currentY : Int
  cursor : String
deriving DecidableEq, Repr

/-- Events handled by `QRRecognizer`: the `TOGGLE_SELECTION_MODE` message and
the three pointer events. -/
inductive RecEvent where
  | toggle
  | mousedown (x y : Int)
  | mousemove (x y : Int)
  | mouseup
deriving DecidableEq, Repr

/-- A freshly constructed `QRRecognizer`: selection mode off, no overlay. -/
def initRecState : RecState :=
  { isSelectionMode := false, selectionBox := none
    startX := 0, startY := 0, currentX := 0, currentY := 0, cursor := "default" }

namespace QRRecognizer

/-- `QRRecognizer.toggleSelectionMode`: unconditionally flips
`isSelectionMode`; when it turns on, sets the crosshair cursor; when it turns
off, reverts the cursor and removes the selection box. -/
def toggleSelectionMode (s : RecState) : RecState :=
  let s2 := { s with isSelectionMode := !s.isSelectionMode }
  if s2.isSelectionMode then { s2 with cursor := "crosshair" }
  else { s2 with cursor := "default", selectionBox := none }

/-- `QRRecognizer.handleMouseDown`: in selection mode, records the anchor and
creates the overlay; the source then calls
`updateSelectionBox(startX, startY, startX, startY)`, so the initial overlay
geometry is `(x, y, x, y)`. -/
def handleMouseDown (s : RecState) (x y : Int) : RecState :=
  if !s.isSelectionMode then s
  else { s with startX := x, startY := y, selectionBox := some (x, y, x, y) }

/-- `QRRecognizer.handleMouseMove`: while in selection mode with an overlay,
tracks the pointer and recomputes the overlay as
`(min start cur, |cur − start|)` per axis. -/
def handleMouseMove (s : RecState) (x y : Int) : RecState :=
  if !s.isSelectionMode || s.selectionBox.isNone then s
  else
    { s with
      currentX := x
      currentY := y
      selectionBox := some (min s.startX x, min s.startY y, |x - s.startX|, |y - s.startY|) }

/-- `QRRecognizer.handleMouseUp`: while in selection mode with an overlay,
reads the overlay rectangle, starts `recognizeFromRect` on it (returned as
the second component), removes the overlay, turns selection mode off and
reverts the cursor; otherwise does nothing. -/
def handleMouseUp (s : RecState) : RecState × Option Rect :=
  if !s.isSelectionMode then (s, none)
  else
    match s.selectionBox with
    | none => (s, none)
    | some rect =>
      ({ s with selectionBox := none, isSelectionMode := false, cursor := "default" },
       some rect)

/-- One event dispatch: the resulting state, and the rectangle of the capture
operation started by this event, if any. -/
def step (s : RecState) : RecEvent → RecState × Option Rect
  | RecEvent.toggle => (toggleSelectionMode s, none)
  | RecEvent.mousedown x y => (handleMouseDown s x y, none)
  | RecEvent.mousemove x y => (handleMouseMove s x y, none)
  | RecEvent.mouseup => handleMouseUp s

/-- Number of capture operations started while dispatching a sequence of
events. -/
def runCaptures : List RecEvent → RecState → Nat
  | [], _ => 0
  | e :: rest, s =>
    (if (step s e).2.isSome then 1 else 0) + runCaptures rest (step s e).1

/-- The decoded symbol produced by the external `jsQR` collaborator:
`code.data` and the optional `code.location…topLeftCorner`. -/
structure DecodeOut where
  data : String
  loc : Option (Int × Int)
deriving DecidableEq, Repr

/-- The `RecognitionResult` record of `recognizeFromRect` (`error` is set
only on the thrown path, which reports the exception instead). -/
structure RecognitionResult where
  success : Bool
  data : Option String
  location : Option (Int × Int)
  duration : Nat
deriving DecidableEq, Repr

/-- `QRRecognizer.recognizeFromRect(rect)` after the capture and decode
collaborators have run. `h2cAvail` and `jsQRAvail` model the two library
presence checks; `decodeRes` is what `jsQR` returned on the cropped pixels;
the measured wall-clock `duration`, the entry timestamp `now` and the
generated `id` come from the environment; `hist` is the stored `qrHistory`
list. Returns the result (or thrown error), the stored history after the
call, and the notifications shown as (message, type) pairs.

On a decode hit: result with the data and the location corners (each
coordinate defaulting to 0), the full data saved through
`StorageManager.saveToHistory`, and a success notification carrying
`data.substring(0, 50)` plus `'...'` exactly when the data is longer than 50
characters. On a miss: a `success: false` result with `data: null`, no
history write, and the "not recognized" warning. Both results carry the
measured duration. A missing library throws the `7001`/`7002` runtime error,
re-wrapped by the `catch` as `7003`, after showing the failure
notification. -/
def recognizeFromRect (h2cAvail jsQRAvail : Bool) (decodeRes : Option DecodeOut)
    (duration now : Nat) (id : String) (hist : List StorageEntry) :
    Except AppError RecognitionResult × List StorageEntry × List (String × String) :=
  if !h2cAvail then
    (Except.error (AppError.mk "QR code recognition failed" ErrorType.runtime 7003
        (some (AppError.mk "html2canvas library not available" ErrorType.runtime 7001 none))),
     hist, [("识别失败: html2canvas library not available", "error")])
  else if !jsQRAvail then
    (Except.error (AppError.mk "QR code recognition failed" ErrorType.runtime 7003
        (some (AppError.mk "jsQR library not available" ErrorType.runtime 7002 none))),
     hist, [("识别失败: jsQR library not available", "error")])
  else
    match decodeRes with
    | some code =>
      let preview := String.mk (code.data.toList.take 50) ++
        (if decide (50 < code.data.toList.length) then "..." else "")
      (Except.ok
        { success := true, data := some code.data
          location := some (code.loc.getD (0, 0)), duration := duration },
       (StorageManager.saveToHistory code.data now id hist).2,
       [("识别成功: " ++ preview, "success")])
    | none =>
      (Except.ok { success := false, data := none, location := none, duration := duration },
       hist, [("未识别到二维码", "warning")])

end QRRecognizer

/-! ## Helper lemmas -/

/-- Truncating after appending to an already-truncated tail is the same as
truncating once at the end. -/
theorem take_append_take {α : Type} (L M : List α) (n : Nat) :
    (L ++ M.take n).take n = (L ++ M).take n := by
  rw [List.take_append_eq_append_take, List.take_append_eq_append_take, List.take_take]
  have h : (n - L.length) ⊓ n = n - L.length := inf_eq_left.mpr (Nat.sub_le n L.length)
  rw [h]

/-- A successful sequence of `add` calls produces the reverse of the calls
(newest first) in front of the initial history, truncated to the cap. -/
theorem runAdds_spec (calls : List (String × Nat × String)) (h0 : List HistoryEntry)
    (hne : ∀ c ∈ calls, c.1 ≠ "") (hlen : h0.length ≤ 100) :
    HistoryManager.runAdds calls h0 =
      ((calls.map fun c => HistoryManager.mkItem c.1 c.2.1 c.2.2).reverse ++ h0).take 100 := by
  induction calls generalizing h0 with
  | nil =>
    simp [HistoryManager.runAdds, List.take_of_length_le hlen]
  | cons c rest ih =>
    have hc : c.1 ≠ "" := hne c (List.mem_cons_self c rest)
    have hrest : ∀ x ∈ rest, x.1 ≠ "" := fun x hx => hne x (List.mem_cons_of_mem c hx)
    have hlen2 : ((HistoryManager.mkItem c.1 c.2.1 c.2.2 :: h0).take 100).length ≤ 100 :=
      List.length_take_le 100 _
    have hstep : HistoryManager.runAdds (c :: rest) h0 =
        HistoryManager.runAdds rest ((HistoryManager.mkItem c.1 c.2.1 c.2.2 :: h0).take 100) := by
      simp only [HistoryManager.runAdds, HistoryManager.add, if_neg hc]
    rw [hstep, ih _ hrest hlen2, take_append_take]
    simp [List.append_assoc]

/-- If no entry has the id, `findIndex` returns `-1`. -/
theorem removeFirstById_eq_none {id : String} {l : List HistoryEntry}
    (h : ∀ e ∈ l, e.id ≠ id) : HistoryManager.removeFirstById id l = none := by
  induction l with
  | nil => rfl
  | cons item rest ih =>
    have h1 : item.id ≠ id := h item (List.mem_cons_self item rest)
    have h2 : ∀ e ∈ rest, e.id ≠ id := fun e he => h e (List.mem_cons_of_mem item he)
    rw [HistoryManager.removeFirstById, if_neg h1, ih h2]

/-- `findIndex`/`splice` removes the first matching entry and nothing else. -/
theorem removeFirstById_eq_some {id : String} (pre : List HistoryEntry)
    (item : HistoryEntry) (post : List HistoryEntry)
    (hitem : item.id = id) (hpre : ∀ e ∈ pre, e.id ≠ id) :
    HistoryManager.removeFirstById id (pre ++ item :: post) = some (item, pre ++ post) := by
  induction pre with
  | nil =>
    simp only [List.nil_append]
    rw [HistoryManager.removeFirstById, if_pos hitem]
  | cons b rest ih =>
    have hb : b.id ≠ id := hpre b (List.mem_cons_self b rest)
    have hrest : ∀ e ∈ rest, e.id ≠ id := fun e he => hpre e (List.mem_cons_of_mem b he)
    simp only [List.cons_append]
    rw [HistoryManager.removeFirstById, if_neg hb, ih hrest]

/-- `handleMouseDown` never changes the selection-mode flag. -/
theorem handleMouseDown_mode (s : RecState) (x y : Int) :
    (QRRecognizer.handleMouseDown s x y).isSelectionMode = s.isSelectionMode := by
  rw [QRRecognizer.handleMouseDown]
  split <;> rfl

/-- `handleMouseMove` never changes the selection-mode flag. -/
theorem handleMouseMove_mode (s : RecState) (x y : Int) :
    (QRRecognizer.handleMouseMove s x y).isSelectionMode = s.isSelectionMode := by
  rw [QRRecognizer.handleMouseMove]
  split <;> rfl

/-- Captures started while running an event list are bounded by the toggle
count plus one for an already-enabled selection mode. -/
theorem runCaptures_le (evs : List RecEvent) (s : RecState) :
    QRRecognizer.runCaptures evs s ≤
      List.count RecEvent.toggle evs + (if s.isSelectionMode then 1 else 0) := by
  induction evs generalizing s with
  | nil => simp [QRRecognizer.runCaptures]
  | cons e rest ih =>
    cases e with
    | toggle =>
      have h1 : QRRecognizer.runCaptures (RecEvent.toggle :: rest) s =
          0 + QRRecognizer.runCaptures rest (QRRecognizer.toggleSelectionMode s) := rfl
      have h2 : List.count RecEvent.toggle (RecEvent.toggle :: rest) =
          List.count RecEvent.toggle rest + 1 := by
        simp [List.count_cons]
      have h3 := ih (QRRecognizer.toggleSelectionMode s)
      have h4 : (if (QRRecognizer.toggleSelectionMode s).isSelectionMode then 1 else 0) ≤ 1 := by
        split <;> omega
      rw [h1, h2]
      omega
    | mousedown x y =>
      have h1 : QRRecognizer.runCaptures (RecEvent.mousedown x y :: rest) s =
          0 + QRRecognizer.runCaptures rest (QRRecognizer.handleMouseDown s x y) := rfl
      have hc : (RecEvent.mousedown x y == RecEvent.toggle) = false := rfl
      have h2 : List.count RecEvent.toggle (RecEvent.mousedown x y :: rest) =
          List.count RecEvent.toggle rest := by
        simp [List.count_cons, hc]
      have h3 := ih (QRRecognizer.handleMouseDown s x y)
      rw [handleMouseDown_mode] at h3
      rw [h1, h2]
      omega
    | mousemove x y =>
      have h1 : QRRecognizer.runCaptures (RecEvent.mousemove x y :: rest) s =
          0 + QRRecognizer.runCaptures rest (QRRecognizer.handleMouseMove s x y) := rfl
      have hc : (RecEvent.mousemove x y == RecEvent.toggle) = false := rfl
      have h2 : List.count RecEvent.toggle (RecEvent.mousemove x y :: rest) =
          List.count RecEvent.toggle rest := by
        simp [List.count_cons, hc]
      have h3 := ih (QRRecognizer.handleMouseMove s x y)
      rw [handleMouseMove_mode] at h3
      rw [h1, h2]
      omega
    | mouseup =>
      have h2 : List.count RecEvent.toggle (RecEvent.mouseup :: rest) =
          List.count RecEvent.toggle rest := by
        have hc : (RecEvent.mouseup == RecEvent.toggle) = false := rfl
        simp [List.count_cons, hc]
      rw [h2]
      cases hm : s.isSelectionMode with
      | false =>
        have hup : QRRecognizer.handleMouseUp s = (s, none) := by
          simp [QRRecognizer.handleMouseUp, hm]
        have h1 : QRRecognizer.runCaptures (RecEvent.mouseup :: rest) s =
            (if (QRRecognizer.handleMouseUp s).2.isSome then 1 else 0) +
              QRRecognizer.runCaptures rest (QRRecognizer.handleMouseUp s).1 := rfl
        rw [h1, hup]
        have h3 := ih s
        rw [hm] at h3
        simp at h3 ⊢
        omega
      | true =>
        cases hbox : s.selectionBox with
        | none =>
          have hup : QRRecognizer.handleMouseUp s = (s, none) := by
            simp [QRRecognizer.handleMouseUp, hm, hbox]
          have h1 : QRRecognizer.runCaptures (RecEvent.mouseup :: rest) s =
              (if (QRRecognizer.handleMouseUp s).2.isSome then 1 else 0) +
                QRRecognizer.runCaptures rest (QRRecognizer.handleMouseUp s).1 := rfl
          rw [h1, hup]
          have h3 := ih s
          rw [hm] at h3
          simp at h3 ⊢
          omega
        | some rect =>
          have hup : QRRecognizer.handleMouseUp s =
              ({ s with
                  selectionBox := none
                  isSelectionMode := false
                  cursor := "default" }, some rect) := by
            simp [QRRecognizer.handleMouseUp, hm, hbox]
          have h1 : QRRecognizer.runCaptures (RecEvent.mouseup :: rest) s =
              (if (QRRecognizer.handleMouseUp s).2.isSome then 1 else 0) +
                QRRecognizer.runCaptures rest (QRRecognizer.handleMouseUp s).1 := rfl
          rw [h1, hup]
          have h3 := ih { s with
            selectionBox := none
            isSelectionMode := false
            cursor := "default" }
          simp at h3 ⊢
          omega

/-- Inserting an element that compares `le` to the head keeps it in front. -/
theorem stableSort_eq_self {α : Type} (le : α → α → Bool) (l : List α)
    (h : l.Pairwise (fun x y => le x y = true)) :
    HistoryManager.stableSort le l = l := by
  induction l with
  | nil => rfl
  | cons a t ih =>
    have ha : ∀ b ∈ t, le a b = true := (List.pairwise_cons.mp h).1
    have ht := (List.pairwise_cons.mp h).2
    rw [HistoryManager.stableSort, ih ht]
    cases t with
    | nil => rfl
    | cons b t2 =>
      have hab : le a b = true := ha b (List.mem_cons_self b t2)
      rw [HistoryManager.orderedInsert, if_pos hab]

/-- The state reached from a fresh recognizer by a toggle command followed by
a mouse-down at (5, 7): selection mode is on and the overlay exists — the
`Dragging` state of the spec. -/
def draggingState : RecState :=
  (QRRecognizer.step (QRRecognizer.step initRecState RecEvent.toggle).1
    (RecEvent.mousedown 5 7)).1

/-! ## Claim theorems -/

/-- C1: `saveSettings(P)` does not validate the merged result — it validates
the partial argument `P` itself before merging. For `P = { size: 500 }` over
current default settings the merged result passes validation, yet
`saveSettings` fails (so every single-key save through `setSetting` fails);
and for the invalid full object with `size = 50` the thrown error has type
StorageError (code 4002), not ValidationError (which only appears wrapped in
its details); in both cases the in-memory and persisted settings are left
unchanged. -/
theorem C1_saveSettings_validates_partial_not_merged :
    ConfigManager.validateSettings
        (ConfigManager.mergeSettings cfgSt0.currentSettings sizeOnly500) = Except.ok () ∧
    ConfigManager.saveSettings sizeOnly500 cfgSt0 true =
      (Except.error (AppError.mk "Failed to save settings" ErrorType.storage 4002
        (some (AppError.mk "Settings validation failed" ErrorType.validation 4102 none))),
       cfgSt0) ∧
    ConfigManager.saveSettings badSize50 cfgSt0 true =
      (Except.error (AppError.mk "Failed to save settings" ErrorType.storage 4002
        (some (AppError.mk "Settings validation failed" ErrorType.validation 4102 none))),
       cfgSt0) ∧
    ErrorType.storage ≠ ErrorType.validation :=
  ⟨rfl, rfl, rfl, by decide⟩

/-- C2: after any sequence of successful `add` calls on a store within the
cap, the stored history has length at most 100 and equals the added entries
newest-first (each call prepends) in front of the initial store, truncated to
the 100 most recent. -/
theorem C2_add_cap_newest_first (calls : List (String × Nat × String))
    (h0 : List HistoryEntry) (hne : ∀ c ∈ calls, c.1 ≠ "") (hlen : h0.length ≤ 100) :
    (HistoryManager.runAdds calls h0).length ≤ 100 ∧
    HistoryManager.runAdds calls h0 =
      ((calls.map fun c => HistoryManager.mkItem c.1 c.2.1 c.2.2).reverse ++ h0).take 100 := by
  have h := runAdds_spec calls h0 hne hlen
  exact ⟨h ▸ List.length_take_le 100 _, h⟩

/-- Witness for C2 at a concrete two-call sequence on an empty store. -/
theorem C2_add_cap_newest_first_witness :
    (HistoryManager.runAdds [("a", 1, "i1"), ("b", 2, "i2")] []).length ≤ 100 ∧
    HistoryManager.runAdds [("a", 1, "i1"), ("b", 2, "i2")] [] =
      ((([("a", 1, "i1"), ("b", 2, "i2")] : List (String × Nat × String)).map
          fun (c : String × Nat × String) =>
            HistoryManager.mkItem c.1 c.2.1 c.2.2).reverse ++ []).take 100 :=
  C2_add_cap_newest_first [("a", 1, "i1"), ("b", 2, "i2")] []
    (by decide) (by decide)

/-- C3 counterexample: `delete` on an id not present fails, but the thrown
error has type StorageError (code 8202), not ValidationError — the
ValidationError (8201) only appears wrapped inside its details. -/
theorem C3_delete_missing_id_error_type :
    HistoryManager.delete "missing" [] = Except.error HistoryManager.notFoundError ∧
    HistoryManager.notFoundError.etype = ErrorType.storage ∧
    HistoryManager.notFoundError.etype ≠ ErrorType.validation :=
  ⟨rfl, rfl, by decide⟩

/-- C3 (amended): for an id with no matching entry, `delete` fails with a
StorageError-typed wrapper (code 8202) whose details carry the
"History item not found" ValidationError (8201) — it never silently no-ops;
for an id present, it removes exactly the first entry carrying that id
(unique by construction) and leaves every other entry unchanged. -/
theorem C3_delete_amended (id : String) (history : List HistoryEntry) :
    ((∀ e ∈ history, e.id ≠ id) →
      HistoryManager.delete id history = Except.error HistoryManager.notFoundError ∧
      HistoryManager.notFoundError.etype = ErrorType.storage ∧
      HistoryManager.notFoundError.inner.map AppError.etype = some ErrorType.validation) ∧
    (∀ pre item post, history = pre ++ item :: post → item.id = id →
      (∀ e ∈ pre, e.id ≠ id) →
      HistoryManager.delete id history = Except.ok (item, pre ++ post)) := by
  constructor
  · intro h
    refine ⟨?_, rfl, rfl⟩
    rw [HistoryManager.delete, removeFirstById_eq_none h]
  · intro pre item post hsplit hitem hpre
    subst hsplit
    rw [HistoryManager.delete, removeFirstById_eq_some pre item post hitem hpre]

/-- Witness for C3 deleting the second of two entries. -/
theorem C3_delete_amended_witness :
    HistoryManager.delete "id2"
        [⟨"one", 1, "id1", "text"⟩, ⟨"two", 2, "id2", "text"⟩] =
      Except.ok (⟨"two", 2, "id2", "text"⟩, [⟨"one", 1, "id1", "text"⟩]) :=
  (C3_delete_amended "id2" [⟨"one", 1, "id1", "text"⟩, ⟨"two", 2, "id2", "text"⟩]).2
    [⟨"one", 1, "id1", "text"⟩] ⟨"two", 2, "id2", "text"⟩ [] rfl rfl (by decide)

/-- C4 counterexample: from the state reached by a toggle followed by a
mouse-down (selection mode on, overlay present — the `Dragging` state), a
second toggle command is *not* ignored: it changes the state, disabling
selection mode and removing the overlay. -/
theorem C4_toggle_while_dragging_not_ignored :
    draggingState.isSelectionMode = true ∧
    draggingState.selectionBox = some (5, 7, 5, 7) ∧
    (QRRecognizer.step draggingState RecEvent.toggle).1.isSelectionMode = false ∧
    (QRRecognizer.step draggingState RecEvent.toggle).1.selectionBox = none ∧
    (QRRecognizer.step draggingState RecEvent.toggle).1 ≠ draggingState :=
  ⟨rfl, rfl, rfl, rfl, by decide⟩

/-- C4 (amended): a toggle command received while dragging is not ignored but
cancels the cycle — it disables selection mode, reverts the cursor and
removes the overlay, and starts no capture; any event that starts a capture
(a mouse-up while dragging) leaves the controller back in the idle state
(mode off, overlay removed, cursor reverted); and over any event sequence
from the initial state at most one capture starts per toggle command, so no
two captures can start within one selection cycle. -/
theorem C4_selection_single_flight_amended (s : RecState) :
    (s.isSelectionMode = true → s.selectionBox.isSome = true →
      QRRecognizer.step s RecEvent.toggle =
        ({ s with isSelectionMode := false, cursor := "default", selectionBox := none },
         none)) ∧
    (∀ rect, (QRRecognizer.step s RecEvent.mouseup).2 = some rect →
      (QRRecognizer.step s RecEvent.mouseup).1.isSelectionMode = false ∧
      (QRRecognizer.step s RecEvent.mouseup).1.selectionBox = none ∧
      (QRRecognizer.step s RecEvent.mouseup).1.cursor = "default") ∧
    (∀ evs, QRRecognizer.runCaptures evs initRecState ≤ List.count RecEvent.toggle evs) := by
  refine ⟨?_, ?_, ?_⟩
  · intro hm _hbox
    simp [QRRecognizer.step, QRRecognizer.toggleSelectionMode, hm]
  · intro rect hcap
    cases hm : s.isSelectionMode with
    | false =>
      have : QRRecognizer.handleMouseUp s = (s, none) := by
        simp [QRRecognizer.handleMouseUp, hm]
      rw [show QRRecognizer.step s RecEvent.mouseup = QRRecognizer.handleMouseUp s from rfl,
        this] at hcap
      simp at hcap
    | true =>
      cases hbox : s.selectionBox with
      | none =>
        have : QRRecognizer.handleMouseUp s = (s, none) := by
          simp [QRRecognizer.handleMouseUp, hm, hbox]
        rw [show QRRecognizer.step s RecEvent.mouseup = QRRecognizer.handleMouseUp s from rfl,
          this] at hcap
        simp at hcap
      | some r =>
        have hup : QRRecognizer.handleMouseUp s =
            ({ s with
                selectionBox := none
                isSelectionMode := false
                cursor := "default" }, some r) := by
          simp [QRRecognizer.handleMouseUp, hm, hbox]
        rw [show QRRecognizer.step s RecEvent.mouseup = QRRecognizer.handleMouseUp s from rfl,
          hup]
        exact ⟨rfl, rfl, rfl⟩
  · intro evs
    have h := runCaptures_le evs initRecState
    simpa using h

/-- Witness for C4: the concrete dragging state is cancelled by a toggle, and
a full cycle of events starts at most one capture per toggle. -/
theorem C4_selection_single_flight_witness :
    QRRecognizer.step draggingState RecEvent.toggle =
      ({ draggingState with
          isSelectionMode := false, cursor := "default", selectionBox := none }, none) ∧
    QRRecognizer.runCaptures
        [RecEvent.toggle, RecEvent.mousedown 1 2, RecEvent.mousemove 11 12, RecEvent.mouseup]
        initRecState ≤
      List.count RecEvent.toggle
        [RecEvent.toggle, RecEvent.mousedown 1 2, RecEvent.mousemove 11 12, RecEvent.mouseup] :=
  ⟨(C4_selection_single_flight_amended draggingState).1 rfl rfl,
   (C4_selection_single_flight_amended draggingState).2.2
     [RecEvent.toggle, RecEvent.mousedown 1 2, RecEvent.mousemove 11 12, RecEvent.mouseup]⟩

/-- C5: when decoding yields a result, `recognizeFromRect` returns a success
result carrying the data, persists the full content to the stored history
(prepended, capped), and notifies with the first 50 characters plus an
ellipsis exactly when the data is longer; when decoding yields nothing, it
returns `success: false` with no data, emits the "not recognized" warning,
and leaves the history untouched; both results carry the measured
duration. -/
theorem C5_recognize_outcomes (d : QRRecognizer.DecodeOut) (duration now : Nat)
    (id : String) (hist : List StorageEntry) :
    QRRecognizer.recognizeFromRect true true (some d) duration now id hist =
      (Except.ok { success := true, data := some d.data,
                   location := some (d.loc.getD (0, 0)), duration := duration },
       ({ content := d.data, timestamp := now, id := id } :: hist).take HISTORY_LIMIT,
       [("识别成功: " ++ (String.mk (d.data.toList.take 50) ++
          (if decide (50 < d.data.toList.length) then "..." else "")), "success")]) ∧
    (QRRecognizer.recognizeFromRect true true (some d) duration now id hist).2.1.head? =
      some { content := d.data, timestamp := now, id := id } ∧
    QRRecognizer.recognizeFromRect true true none duration now id hist =
      (Except.ok { success := false, data := none, location := none, duration := duration },
       hist, [("未识别到二维码", "warning")]) :=
  ⟨rfl, rfl, rfl⟩

/-- C6: content classification tries url, then email, then phone, then falls
back to text, and classifies the four reference inputs accordingly (URL
validity is the modelled platform `new URL` check). -/
theorem C6_detectContentType_precedence (s : String) :
    HistoryManager.detectContentType s =
      (if HistoryManager.isUrl s then "url"
       else if HistoryManager.isEmail s then "email"
       else if HistoryManager.isPhoneNumber s then "phone"
       else "text") ∧
    HistoryManager.detectContentType "https://example.com" = "url" ∧
    HistoryManager.detectContentType "a@b.com" = "email" ∧
    HistoryManager.detectContentType "+1 (555) 123-4567" = "phone" ∧
    HistoryManager.detectContentType "hello world" = "text" :=
  ⟨rfl, rfl, rfl, rfl, rfl⟩

/-- C7: an entry whose type alone matches the query is *dropped* by `search`:
the query is stored in `searchQuery` before the history is read through
`getAll`, whose `filterAndSort` pre-filter keeps only entries whose *content*
contains the query, so the content-or-type filter inside `search` never sees
a type-only match. Here the entry's type `"url"` contains the query `"url"`
(its content does not), yet the search result is empty. -/
theorem C7_search_type_match_dropped :
    HistoryManager.strIncludes (HistoryManager.toLower "url")
        (HistoryManager.toLower "url") = true ∧
    HistoryManager.strIncludes (HistoryManager.toLower "hello")
        (HistoryManager.toLower "url") = false ∧
    (HistoryManager.search "url" defaultHMState
        [{ content := "hello", timestamp := 5, id := "id1", type := "url" }]).1 = [] :=
  ⟨rfl, rfl, rfl⟩

/-- C8 counterexample: a write that fails on its first three attempts
(retry counts 0, 1 and 2) and succeeds on the fourth still reports success —
the code performs up to four attempts (one initial plus `maxRetries = 3`
retries), not three, sleeping 1000, 2000 and 3000 ms before them. -/
theorem C8_fourth_attempt_succeeds :
    ((fun n => decide (n = 3)) 0 = false ∧ (fun n => decide (n = 3)) 1 = false ∧
      (fun n => decide (n = 3)) 2 = false) ∧
    StorageManager.setWithRetry (fun n => decide (n = 3)) 0 = (true, [1000, 2000, 3000]) :=
  ⟨⟨rfl, rfl, rfl⟩, rfl⟩

/-- C8 (amended): a persistently failing write is attempted exactly four
times (the initial attempt plus three retries) with strictly increasing
delays 1000, 2000, 3000 ms before the retries, and only after the fourth
attempt fails is failure reported; a write that first succeeds on attempt
`k ≤ 3` reports success after sleeping the `k` first delays; the delays slept
are always strictly increasing. -/
theorem C8_setWithRetry_amended (attemptOk : Nat → Bool) :
    ((∀ k, k ≤ 3 → attemptOk k = false) →
      StorageManager.setWithRetry attemptOk 0 = (false, [1000, 2000, 3000])) ∧
    (∀ k, k ≤ 3 → attemptOk k = true → (∀ j, j < k → attemptOk j = false) →
      StorageManager.setWithRetry attemptOk 0 =
        (true, (List.range k).map fun j => 1000 * (j + 1))) ∧
    List.Pairwise (· < ·) (StorageManager.setWithRetry attemptOk 0).2 := by
  refine ⟨?_, ?_, ?_⟩
  · intro h
    have h0 := h 0 (by omega)
    have h1 := h 1 (by omega)
    have h2 := h 2 (by omega)
    have h3 := h 3 (by omega)
    simp [StorageManager.setWithRetry, StorageManager.setWithRetryGo,
      StorageManager.maxRetries, StorageManager.retryDelay, h0, h1, h2, h3]
  · intro k hk hsucc hprev
    interval_cases k
    · simp [StorageManager.setWithRetry, StorageManager.setWithRetryGo,
        StorageManager.maxRetries, StorageManager.retryDelay, hsucc]
    · have h0 := hprev 0 (by omega)
      simp [StorageManager.setWithRetry, StorageManager.setWithRetryGo,
        StorageManager.maxRetries, StorageManager.retryDelay, h0, hsucc]
      decide
    · have h0 := hprev 0 (by omega)
      have h1 := hprev 1 (by omega)
      simp [StorageManager.setWithRetry, StorageManager.setWithRetryGo,
        StorageManager.maxRetries, StorageManager.retryDelay, h0, h1, hsucc]
      decide
    · have h0 := hprev 0 (by omega)
      have h1 := hprev 1 (by omega)
      have h2 := hprev 2 (by omega)
      simp [StorageManager.setWithRetry, StorageManager.setWithRetryGo,
        StorageManager.maxRetries, StorageManager.retryDelay, h0, h1, h2, hsucc]
      decide
  · cases h0 : attemptOk 0 <;> cases h1 : attemptOk 1 <;> cases h2 : attemptOk 2 <;>
      cases h3 : attemptOk 3 <;>
      simp [StorageManager.setWithRetry, StorageManager.setWithRetryGo,
        StorageManager.maxRetries, StorageManager.retryDelay, h0, h1, h2, h3]

/-- Witness for C8: the always-failing write is attempted four times and then
reports failure. -/
theorem C8_setWithRetry_witness :
    StorageManager.setWithRetry (fun _ => false) 0 = (false, [1000, 2000, 3000]) :=
  (C8_setWithRetry_amended (fun _ => false)).1 (fun _ _ => rfl)

/-- C9: exporting a history (newest-first, within the cap) in the JSON
format and importing the result into an empty store reproduces the same
entries — in particular the same content values in the same order. -/
theorem C9_export_roundtrip (now : String) (h : List HistoryEntry)
    (hsorted : h.Pairwise (fun a b => b.timestamp ≤ a.timestamp))
    (hlen : h.length ≤ 100) :
    HistoryManager.storeImported
      (HistoryManager.itemsFromJson (HistoryManager.exportHistory now defaultHMState h)) []
      = h ∧
    (HistoryManager.storeImported
      (HistoryManager.itemsFromJson (HistoryManager.exportHistory now defaultHMState h))
      []).map HistoryEntry.content = h.map HistoryEntry.content := by
  have hs : HistoryManager.stableSort (HistoryManager.tsLe "desc") h = h := by
    refine stableSort_eq_self _ _ (hsorted.imp ?_)
    intro a b hab
    simp [HistoryManager.tsLe, hab]
  have hmain : HistoryManager.storeImported
      (HistoryManager.itemsFromJson (HistoryManager.exportHistory now defaultHMState h)) []
      = h := by
    simp only [HistoryManager.storeImported, HistoryManager.itemsFromJson,
      HistoryManager.exportHistory, HistoryManager.exportAsJson, HistoryManager.filterAndSort,
      defaultHMState]
    simp [hs, List.take_of_length_le hlen]
  exact ⟨hmain, by rw [hmain]⟩

/-- Witness for C9 at a concrete two-entry history. -/
theorem C9_export_roundtrip_witness :
    HistoryManager.storeImported
      (HistoryManager.itemsFromJson (HistoryManager.exportHistory "t" defaultHMState
        [⟨"b", 10, "i2", "text"⟩, ⟨"a", 5, "i1", "text"⟩])) []
      = [⟨"b", 10, "i2", "text"⟩, ⟨"a", 5, "i1", "text"⟩] ∧
    (HistoryManager.storeImported
      (HistoryManager.itemsFromJson (HistoryManager.exportHistory "t" defaultHMState
        [⟨"b", 10, "i2", "text"⟩, ⟨"a", 5, "i1", "text"⟩])) []).map HistoryEntry.content
      = [⟨"b", 10, "i2", "text"⟩, ⟨"a", 5, "i1", "text"⟩].map HistoryEntry.content :=
  C9_export_roundtrip "t" [⟨"b", 10, "i2", "text"⟩, ⟨"a", 5, "i1", "text"⟩]
    (by decide) (by decide)

/-- C10: `getHistory` always yields a list: a missing `qrHistory` key or a
stored non-array value produces the empty list instead of failing or
propagating the malformed value, and a stored array is returned as is. -/
theorem C10_getHistory_always_list (store : Store) :
    (store "qrHistory" = none → StorageManager.getHistory store = []) ∧
    (∀ v, store "qrHistory" = some v → (∀ xs, v ≠ JsVal.arr xs) →
      StorageManager.getHistory store = []) ∧
    (∀ xs, store "qrHistory" = some (JsVal.arr xs) →
      StorageManager.getHistory store = xs) := by
  refine ⟨?_, ?_, ?_⟩
  · intro h
    simp [StorageManager.getHistory, StorageManager.get, h]
  · intro v hv hnot
    rw [StorageManager.getHistory, StorageManager.get, hv]
    cases v with
    | arr xs => exact absurd rfl (hnot xs)
    | null => rfl
    | bool b => rfl
    | num n => rfl
    | str s => rfl
  · intro xs h
    simp [StorageManager.getHistory, StorageManager.get, h]

/-- Witness for C10 on a store holding a non-array value under the history
key. -/
theorem C10_getHistory_witness :
    StorageManager.getHistory
      (fun key => if key = "qrHistory" then some (JsVal.str "oops") else none) = [] :=
  (C10_getHistory_always_list
      (fun key => if key = "qrHistory" then some (JsVal.str "oops") else none)).2.1
    (JsVal.str "oops") (by simp) (fun xs h => JsVal.noConfusion h)

end QRCodeExt
